import Mathlib

/-
Verification of the pack-management bot (src/main.py, src/sticker.py,
src/config.py) against its natural-language specification.

The Python handlers are shallowly embedded as pure Lean functions.
Remote Telegram API calls and fallible sqlite writes are modelled by
boolean oracles saying whether the corresponding call succeeds; a raised
Python exception that escapes a handler is modelled by an explicit
"threw" outcome.  Strings are processed through List Char, mirroring
the Python string operations character by character (ASCII domain).
-/

/-! ## Configuration constants (src/config.py, default values) -/

def FREE_MAX_STICKERS : Nat := 30

def FREE_MAX_EMOJIS : Nat := 40

def PAID_MAX_ITEMS : Nat := 120

def FREE_PACK_NAME_MIN_LEN : Nat := 4

def FREE_PACK_NAME_MAX_LEN : Nat := 12

def PAID_PACK_NAME_MIN_LEN : Nat := 1

def PAID_PACK_NAME_MAX_LEN : Nat := 32

/-! ## Slug sanitization (src/sticker.py, normalize_pack_name)

Python: slug = re.sub(r"[^a-zA-Z0-9_]+", "_", base).strip("_"); return slug.lower()
-/

/-- Character class [a-zA-Z0-9_] of the regex in normalize_pack_name. -/
def isAllowedChar (c : Char) : Bool :=
  decide ((97 ≤ c.toNat ∧ c.toNat ≤ 122) ∨ (65 ≤ c.toNat ∧ c.toNat ≤ 90) ∨
    (48 ≤ c.toNat ∧ c.toNat ≤ 57) ∨ c.toNat = 95)

/-- ASCII letters and digits (the allowed class without the underscore). -/
def isAlnumChar (c : Char) : Bool :=
  decide ((97 ≤ c.toNat ∧ c.toNat ≤ 122) ∨ (65 ≤ c.toNat ∧ c.toNat ≤ 90) ∨
    (48 ≤ c.toNat ∧ c.toNat ≤ 57))

/-- Lowercase letters, digits and underscore: the characters a slug may contain. -/
def isLowerSlugChar (c : Char) : Bool :=
  decide ((97 ≤ c.toNat ∧ c.toNat ≤ 122) ∨ (48 ≤ c.toNat ∧ c.toNat ≤ 57) ∨ c.toNat = 95)

/-- Replace every maximal run of characters outside [a-zA-Z0-9_] by a single
underscore: re.sub(r"[^a-zA-Z0-9_]+", "_", ·).  The boolean flag records
whether the previous character was part of a disallowed run. -/
def subRuns : Bool → List Char → List Char
  | _, [] => []
  | prevBad, c :: cs =>
    if isAllowedChar c then c :: subRuns false cs
    else if prevBad then subRuns prevBad cs
    else '_' :: subRuns true cs

/-- Test for the underscore character, used by .strip("_"). -/
def isUnd (c : Char) : Bool := decide (c.toNat = 95)

/-- Python str.strip("_"): drop leading and trailing underscores. -/
def stripUnd (l : List Char) : List Char :=
  ((l.dropWhile isUnd).reverse.dropWhile isUnd).reverse

/-- Python str.lower restricted to ASCII, the only characters reaching it here
(the sub step has already replaced everything outside [a-zA-Z0-9_]). -/
def asciiLower (c : Char) : Char :=
  if 65 ≤ c.toNat ∧ c.toNat ≤ 90 then Char.ofNat (c.toNat + 32) else c

/-- src/sticker.py normalize_pack_name: sanitize, strip underscores, lowercase. -/
def normalize_pack_name (s : String) : String :=
  String.mk ((stripUnd (subRuns false s.data)).map asciiLower)

/-! ### Character-level lemmas -/

theorem char_toNat_ofNat (n : Nat) (h : n < 55296) : (Char.ofNat n).toNat = n := by
  have hv : Nat.isValidChar n := Or.inl h
  simp only [Char.ofNat, hv, dif_pos, Char.ofNatAux, Char.toNat]
  exact BitVec.toNat_ofNatLt _ _

theorem asciiLower_toNat (c : Char) :
    (asciiLower c).toNat = if 65 ≤ c.toNat ∧ c.toNat ≤ 90 then c.toNat + 32 else c.toNat := by
  unfold asciiLower
  by_cases h : 65 ≤ c.toNat ∧ c.toNat ≤ 90
  · rw [if_pos h, if_pos h, char_toNat_ofNat _ (by omega)]
  · rw [if_neg h, if_neg h]

theorem isLowerSlugChar_asciiLower (c : Char) (h : isAllowedChar c = true) :
    isLowerSlugChar (asciiLower c) = true := by
  simp only [isAllowedChar, decide_eq_true_eq] at h
  simp only [isLowerSlugChar, decide_eq_true_eq, asciiLower_toNat]
  split <;> omega

theorem asciiLower_eq_self (c : Char) (h : isLowerSlugChar c = true) :
    asciiLower c = c := by
  simp only [isLowerSlugChar, decide_eq_true_eq] at h
  unfold asciiLower
  rw [if_neg (by omega)]

theorem isUnd_asciiLower (c : Char) : isUnd (asciiLower c) = isUnd c := by
  simp only [isUnd, asciiLower_toNat]
  split <;> [skip; rfl]
  have : ¬c.toNat + 32 = 95 := by omega
  have : ¬c.toNat = 95 := by omega
  simp_all

theorem isAllowedChar_of_isLowerSlugChar (c : Char) (h : isLowerSlugChar c = true) :
    isAllowedChar c = true := by
  simp only [isLowerSlugChar, decide_eq_true_eq] at h
  simp only [isAllowedChar, decide_eq_true_eq]
  omega

theorem isAllowedChar_of_isAlnumChar (c : Char) (h : isAlnumChar c = true) :
    isAllowedChar c = true := by
  simp only [isAlnumChar, decide_eq_true_eq] at h
  simp only [isAllowedChar, decide_eq_true_eq]
  omega

theorem not_isUnd_of_isAlnumChar (c : Char) (h : isAlnumChar c = true) :
    isUnd c = false := by
  simp only [isAlnumChar, decide_eq_true_eq] at h
  simp only [isUnd, decide_eq_false_iff_not]
  omega

/-! ### Lemmas about subRuns -/

theorem isAllowedChar_of_mem_subRuns {c : Char} :
    ∀ (b : Bool) (l : List Char), c ∈ subRuns b l → isAllowedChar c = true := by
  intro b l
  induction l generalizing b with
  | nil => intro h; simp [subRuns] at h
  | cons a t ih =>
    intro h
    unfold subRuns at h
    by_cases ha : isAllowedChar a = true
    · rw [if_pos ha] at h
      rcases List.mem_cons.mp h with h' | h'
      · exact h' ▸ ha
      · exact ih false h'
    · rw [if_neg ha] at h
      by_cases hb : b = true
      · subst hb; rw [if_pos rfl] at h; exact ih true h
      · have hb' : b = false := by revert hb; cases b <;> simp
        subst hb'
        rw [if_neg (by simp)] at h
        rcases List.mem_cons.mp h with h' | h'
        · subst h'; decide
        · exact ih true h'

theorem subRuns_eq_self {l : List Char} (h : ∀ c ∈ l, isAllowedChar c = true) :
    ∀ b : Bool, subRuns b l = l := by
  induction l with
  | nil => intro b; rfl
  | cons a t ih =>
    intro b
    have ha : isAllowedChar a = true := h a (List.mem_cons_self a t)
    unfold subRuns
    rw [if_pos ha, ih (fun c hc => h c (List.mem_cons_of_mem a hc)) false]

theorem mem_of_mem_subRuns_of_allowed {d : Char} (hd : isAllowedChar d = true) :
    ∀ (b : Bool) (l : List Char), d ∈ l → d ∈ subRuns b l := by
  intro b l
  induction l generalizing b with
  | nil => intro h; exact absurd h (List.not_mem_nil d)
  | cons a t ih =>
    intro h
    unfold subRuns
    rcases List.mem_cons.mp h with h' | h'
    · subst h'; rw [if_pos hd]; exact List.mem_cons_self _ _
    · by_cases ha : isAllowedChar a = true
      · rw [if_pos ha]; exact List.mem_cons_of_mem a (ih false h')
      · rw [if_neg ha]
        by_cases hb : b = true
        · subst hb; rw [if_pos rfl]; exact ih true h'
        · have hb' : b = false := by revert hb; cases b <;> simp
          subst hb'
          rw [if_neg (by simp)]
          exact List.mem_cons_of_mem '_' (ih true h')

theorem subRuns_nil (b : Bool) : subRuns b [] = [] := rfl

theorem subRuns_cons (b : Bool) (c : Char) (cs : List Char) :
    subRuns b (c :: cs) =
      if isAllowedChar c then c :: subRuns false cs
      else if b then subRuns b cs else '_' :: subRuns true cs := rfl

theorem subRuns_append_allowed (y : Char) (hy : isAllowedChar y = true) :
    ∀ (xs : List Char) (b : Bool) (ys : List Char),
      subRuns b (xs ++ y :: ys) = subRuns b xs ++ y :: subRuns false ys := by
  intro xs
  induction xs with
  | nil =>
    intro b ys
    rw [List.nil_append, subRuns_cons, if_pos hy, subRuns_nil, List.nil_append]
  | cons a t ih =>
    intro b ys
    rw [List.cons_append, subRuns_cons, subRuns_cons]
    by_cases ha : isAllowedChar a = true
    · rw [if_pos ha, if_pos ha, ih false ys, List.cons_append]
    · rw [if_neg ha, if_neg ha]
      by_cases hb : b = true
      · subst hb; rw [if_pos rfl, if_pos rfl, ih true ys]
      · have hb' : b = false := by revert hb; cases b <;> simp
        subst hb'
        rw [if_neg (by simp), if_neg (by simp), ih true ys, List.cons_append]

/-! ### Lemmas about dropWhile and stripUnd -/

theorem head_dropWhile_not {p : Char → Bool} :
    ∀ (l : List Char) (c : Char), (l.dropWhile p).head? = some c → p c = false := by
  intro l
  induction l with
  | nil => intro c h; simp [List.dropWhile] at h
  | cons a t ih =>
    intro c h
    rw [List.dropWhile_cons] at h
    by_cases ha : p a = true
    · rw [if_pos ha] at h; exact ih c h
    · rw [if_neg ha] at h
      simp only [List.head?_cons, Option.some.injEq] at h
      subst h
      exact Bool.eq_false_iff.mpr ha

theorem dropWhile_eq_self_of_head {p : Char → Bool}
    (l : List Char) (h : ∀ c, l.head? = some c → p c = false) : l.dropWhile p = l := by
  cases l with
  | nil => rfl
  | cons a t =>
    rw [List.dropWhile_cons, if_neg]
    rw [h a rfl]
    simp

theorem dropWhile_append_of_mem {p : Char → Bool} :
    ∀ (xs : List Char), (∃ x ∈ xs, p x = false) →
      ∀ ys, (xs ++ ys).dropWhile p = xs.dropWhile p ++ ys := by
  intro xs
  induction xs with
  | nil => rintro ⟨x, hx, _⟩ _; exact absurd hx (List.not_mem_nil x)
  | cons a t ih =>
    rintro ⟨x, hx, hpx⟩ ys
    rw [List.cons_append, List.dropWhile_cons, List.dropWhile_cons]
    by_cases ha : p a = true
    · rw [if_pos ha, if_pos ha]
      rcases List.mem_cons.mp hx with h' | h'
      · subst h'; rw [ha] at hpx; cases hpx
      · exact ih ⟨x, h', hpx⟩ ys
    · rw [if_neg ha, if_neg ha, List.cons_append]

theorem dropWhile_eq_self_of_all {p : Char → Bool} :
    ∀ (l : List Char), (∀ x ∈ l, p x = false) → l.dropWhile p = l := by
  intro l h
  cases l with
  | nil => rfl
  | cons a t =>
    rw [List.dropWhile_cons, if_neg]
    rw [h a (List.mem_cons_self a t)]
    simp

theorem mem_stripUnd {c : Char} {l : List Char} (h : c ∈ stripUnd l) : c ∈ l := by
  unfold stripUnd at h
  rw [List.mem_reverse] at h
  have h1 := (List.dropWhile_sublist (l := (l.dropWhile isUnd).reverse) isUnd).mem h
  rw [List.mem_reverse] at h1
  exact (List.dropWhile_sublist isUnd).mem h1

theorem stripUnd_head {l : List Char} {c : Char}
    (h : (stripUnd l).head? = some c) : isUnd c = false := by
  unfold stripUnd at h
  rw [List.head?_reverse] at h
  set Y := ((l.dropWhile isUnd).reverse).dropWhile isUnd with hY
  obtain ⟨t, ht⟩ : Y <:+ (l.dropWhile isUnd).reverse := List.dropWhile_suffix isUnd
  have h2 : ((l.dropWhile isUnd).reverse).getLast? = some c := by
    rw [← ht, List.getLast?_append, h]
    rfl
  rw [List.getLast?_reverse] at h2
  exact head_dropWhile_not _ _ h2

theorem stripUnd_getLast {l : List Char} {c : Char}
    (h : (stripUnd l).getLast? = some c) : isUnd c = false := by
  unfold stripUnd at h
  rw [List.getLast?_reverse] at h
  exact head_dropWhile_not _ _ h

theorem stripUnd_eq_self {l : List Char}
    (h1 : ∀ c, l.head? = some c → isUnd c = false)
    (h2 : ∀ c, l.getLast? = some c → isUnd c = false) : stripUnd l = l := by
  unfold stripUnd
  rw [dropWhile_eq_self_of_head l h1]
  rw [dropWhile_eq_self_of_head l.reverse (fun c hc => h2 c (by rwa [List.head?_reverse] at hc))]
  exact List.reverse_reverse l

/-! ### Lemmas about normalize_pack_name -/

theorem string_mk_data (s : String) : String.mk s.data = s := by
  cases s
  rfl

theorem string_data_append (a b : String) : (a ++ b).data = a.data ++ b.data := by
  cases a
  cases b
  rfl

theorem isLowerSlugChar_of_mem_normalize {s : String} {c : Char}
    (h : c ∈ (normalize_pack_name s).data) : isLowerSlugChar c = true := by
  rcases List.mem_map.mp h with ⟨d, hd, rfl⟩
  exact isLowerSlugChar_asciiLower d
    (isAllowedChar_of_mem_subRuns false _ (mem_stripUnd hd))

theorem normalize_head_not_und {s : String} {c : Char}
    (h : (normalize_pack_name s).data.head? = some c) : isUnd c = false := by
  have h' : (List.map asciiLower (stripUnd (subRuns false s.data))).head? = some c := h
  rw [List.head?_map] at h'
  cases hX : (stripUnd (subRuns false s.data)).head? with
  | none => rw [hX] at h'; cases h'
  | some d =>
    rw [hX] at h'
    have hd : c = asciiLower d := by
      simpa using h'.symm
    rw [hd, isUnd_asciiLower]
    exact stripUnd_head hX

theorem normalize_getLast_not_und {s : String} {c : Char}
    (h : (normalize_pack_name s).data.getLast? = some c) : isUnd c = false := by
  have h' : (List.map asciiLower (stripUnd (subRuns false s.data))).getLast? = some c := h
  rw [List.getLast?_map] at h'
  cases hX : (stripUnd (subRuns false s.data)).getLast? with
  | none => rw [hX] at h'; cases h'
  | some d =>
    rw [hX] at h'
    have hd : c = asciiLower d := by
      simpa using h'.symm
    rw [hd, isUnd_asciiLower]
    exact stripUnd_getLast hX

theorem normalize_pack_name_idem (s : String) :
    normalize_pack_name (normalize_pack_name s) = normalize_pack_name s := by
  have hchars : ∀ c ∈ (normalize_pack_name s).data, isLowerSlugChar c = true :=
    fun c hc => isLowerSlugChar_of_mem_normalize hc
  have h1 : subRuns false (normalize_pack_name s).data = (normalize_pack_name s).data :=
    subRuns_eq_self (fun c hc => isAllowedChar_of_isLowerSlugChar c (hchars c hc)) false
  have h2 : stripUnd (normalize_pack_name s).data = (normalize_pack_name s).data :=
    stripUnd_eq_self (fun c hc => normalize_head_not_und hc)
      (fun c hc => normalize_getLast_not_und hc)
  have h3 : (normalize_pack_name s).data.map asciiLower = (normalize_pack_name s).data := by
    rw [List.map_congr_left (fun c hc => asciiLower_eq_self c (hchars c hc))]
    exact List.map_id _
  show String.mk ((stripUnd (subRuns false (normalize_pack_name s).data)).map asciiLower)
      = normalize_pack_name s
  rw [h1, h2, h3, string_mk_data]

theorem normalize_free_slug_suffix (name u : String)
    (hname : ∃ d ∈ name.data, isAlnumChar d = true)
    (hu : u.data ≠ [])
    (hall : ∀ c ∈ u.data, isAlnumChar c = true) :
    ('_' :: 'b' :: 'y' :: '_' :: u.data.map asciiLower)
      <:+ (normalize_pack_name (name ++ "_by_" ++ u)).data := by
  obtain ⟨d, hd, hdal⟩ := hname
  have hdallow : isAllowedChar d = true := isAllowedChar_of_isAlnumChar d hdal
  have hdund : isUnd d = false := not_isUnd_of_isAlnumChar d hdal
  have hdata : (name ++ "_by_" ++ u).data = name.data ++ '_' :: 'b' :: 'y' :: '_' :: u.data := by
    rw [string_data_append, string_data_append]
    simp
  have hsub : subRuns false (name.data ++ '_' :: 'b' :: 'y' :: '_' :: u.data)
      = subRuns false name.data ++ '_' :: 'b' :: 'y' :: '_' :: u.data := by
    rw [subRuns_append_allowed '_' (by decide) name.data false]
    have : subRuns false ('b' :: 'y' :: '_' :: u.data) = 'b' :: 'y' :: '_' :: u.data := by
      apply subRuns_eq_self
      intro c hc
      rcases List.mem_cons.mp hc with rfl | hc
      · decide
      rcases List.mem_cons.mp hc with rfl | hc
      · decide
      rcases List.mem_cons.mp hc with rfl | hc
      · decide
      · exact isAllowedChar_of_isAlnumChar c (hall c hc)
    rw [this]
  set W0 := subRuns false name.data with hW0
  have hdW0 : d ∈ W0 := mem_of_mem_subRuns_of_allowed hdallow false name.data hd
  have hdrop1 : (W0 ++ '_' :: 'b' :: 'y' :: '_' :: u.data).dropWhile isUnd
      = W0.dropWhile isUnd ++ '_' :: 'b' :: 'y' :: '_' :: u.data :=
    dropWhile_append_of_mem W0 ⟨d, hdW0, hdund⟩ _
  set W1 := W0.dropWhile isUnd with hW1
  have huall : ∀ x ∈ u.data.reverse, isUnd x = false := by
    intro x hx
    exact not_isUnd_of_isAlnumChar x (hall x (List.mem_reverse.mp hx))
  have hurev : u.data.reverse ≠ [] := by
    intro hcon
    exact hu (by simpa using congrArg List.reverse hcon)
  obtain ⟨x0, hx0⟩ : ∃ x0, x0 ∈ u.data.reverse := by
    cases hur : u.data.reverse with
    | nil => exact absurd hur hurev
    | cons a t => exact ⟨a, hur ▸ List.mem_cons_self a t⟩
  have hdrop2 : ∀ Z, (u.data.reverse ++ Z).dropWhile isUnd = u.data.reverse ++ Z := by
    intro Z
    rw [dropWhile_append_of_mem u.data.reverse ⟨x0, hx0, huall x0 hx0⟩ Z,
      dropWhile_eq_self_of_all u.data.reverse huall]
  have hstrip : stripUnd (W0 ++ '_' :: 'b' :: 'y' :: '_' :: u.data)
      = W1 ++ '_' :: 'b' :: 'y' :: '_' :: u.data := by
    unfold stripUnd
    rw [hdrop1]
    have hrev : (W1 ++ '_' :: 'b' :: 'y' :: '_' :: u.data).reverse
        = u.data.reverse ++ ('_' :: 'y' :: 'b' :: '_' :: []) ++ W1.reverse := by
      simp
    rw [hrev, List.append_assoc, hdrop2]
    simp
  have hfinal : (normalize_pack_name (name ++ "_by_" ++ u)).data
      = W1.map asciiLower ++ '_' :: 'b' :: 'y' :: '_' :: u.data.map asciiLower := by
    show ((stripUnd (subRuns false (name ++ "_by_" ++ u).data)).map asciiLower)
        = W1.map asciiLower ++ '_' :: 'b' :: 'y' :: '_' :: u.data.map asciiLower
    rw [hdata, hsub, hstrip]
    simp only [List.map_append, List.map_cons]
    have e1 : asciiLower '_' = '_' := by decide
    have e2 : asciiLower 'b' = 'b' := by decide
    have e3 : asciiLower 'y' = 'y' := by decide
    rw [e1, e2, e3]
  rw [hfinal]
  exact ⟨W1.map asciiLower, rfl⟩

/-! ## Ledger store model (src/main.py persistence helpers)

The sqlite tables packs and pack_items are modelled as in-memory lists;
pack_id is the AUTOINCREMENT key, modelled by next_pack_id.
-/

structure LedgerPack where
  user_id : Nat
  name : String
  title : String
  ptype : String
  is_paid_pack : Bool
  pack_link : String
deriving DecidableEq

structure LedgerItem where
  pack_id : Nat
  file_id : String
  emoji : Option String
  ptype : String
deriving DecidableEq

structure Ledger where
  packs : List (Nat × LedgerPack)
  items : List LedgerItem
  next_pack_id : Nat
deriving DecidableEq

/-- src/main.py insert_pack (lines 199-207): INSERT INTO packs, returning lastrowid. -/
def insert_pack (led : Ledger) (row : LedgerPack) : Ledger × Nat :=
  let led2 : Ledger :=
    { packs := led.packs ++ [(led.next_pack_id, row)],
      items := led.items,
      next_pack_id := led.next_pack_id + 1 }
  (led2, led.next_pack_id)

/-- src/main.py insert_pack_item (lines 227-234): INSERT INTO pack_items. -/
def insert_pack_item (led : Ledger) (pack_id : Nat) (file_id : String)
    (emoji : Option String) (ptype : String) : Ledger :=
  { led with items := led.items ++ [⟨pack_id, file_id, emoji, ptype⟩] }

/-- src/main.py count_pack_items (lines 237-242): COUNT over pack_items by pack_id. -/
def count_pack_items (led : Ledger) (pack_id : Nat) : Nat :=
  (led.items.filter (fun it => it.pack_id == pack_id)).length

/-- src/main.py remove_pack_item_if_exists (lines 245-251):
DELETE FROM pack_items WHERE pack_id=? AND file_id=?. -/
def remove_pack_item_if_exists (led : Ledger) (pack_id : Nat) (file_id : String) : Ledger :=
  { led with items :=
      led.items.filter (fun it => !(it.pack_id == pack_id && it.file_id == file_id)) }

/-- Number of packs of a given type owned by a user (find_user_packs length). -/
def count_user_packs_of_type (led : Ledger) (uid : Nat) (t : String) : Nat :=
  (led.packs.filter (fun p => p.2.user_id == uid && p.2.ptype == t)).length

/-! ## Inbound message content (duck-typed branching in the handlers) -/

inductive MsgContent where
  | sticker (file_id : String) (is_custom_emoji : Bool) (emoji : Option String)
  | text (t : String)
  | photo (file_id : String)
deriving DecidableEq

/-! ## Create-Collection flow (src/main.py lines 329-453) -/

structure CreateMeta where
  ptype : String
  is_paid : Bool
  title : Option String := none
  slug : Option String := none
deriving DecidableEq

inductive ConvState where
  | wait_name
  | wait_first_item
  | conv_end
deriving DecidableEq

structure CmdResult where
  pending : Option CreateMeta
  state : ConvState
  replies : List String
deriving DecidableEq

/-- Python str.lower restricted to the ASCII arguments it receives here. -/
def py_lower (s : String) : String := String.mk (s.data.map asciiLower)

/-- Python str.isspace-class characters stripped by str.strip() (ASCII subset). -/
def isSpaceChar (c : Char) : Bool :=
  decide (c.toNat = 32 ∨ c.toNat = 9 ∨ c.toNat = 10 ∨ c.toNat = 11 ∨ c.toNat = 12 ∨ c.toNat = 13)

/-- Python str.strip(): drop leading and trailing whitespace. -/
def py_strip (s : String) : String :=
  String.mk (((s.data.dropWhile isSpaceChar).reverse.dropWhile isSpaceChar).reverse)

/-- src/main.py create_cmd (lines 329-358): argument check, free-tier
one-pack-per-kind guard, then a fresh pending_create entry overwriting any
previous one for this user. -/
def create_cmd (led : Ledger) (uid : Nat) (user_is_paid : Bool) (args : List String)
    (pending : Option CreateMeta) : CmdResult :=
  match args with
  | [] => { pending := pending, state := .conv_end, replies := ["Usage: /create <emoji|sticker>"] }
  | a :: _ =>
    let pack_type := py_lower a
    if pack_type ≠ "emoji" ∧ pack_type ≠ "sticker" then
      { pending := pending, state := .conv_end, replies := ["Usage: /create <emoji|sticker>"] }
    else if ¬user_is_paid ∧ 0 < count_user_packs_of_type led uid pack_type then
      { pending := pending, state := .conv_end,
        replies := [if pack_type = "emoji" then
          "Free users can have only 1 emoji pack. Buy /bpack emoji for more."
        else
          "Free users can have only 1 sticker pack. Buy /bpack sticker for more."] }
    else
      { pending := some { ptype := pack_type, is_paid := user_is_paid },
        state := .wait_name,
        replies := ["Send a name for your pack."] }

/-- src/main.py create_receive_name (lines 361-387): validate the stripped
name against the tier-specific length range; on success store title and the
derived slug (free names are suffixed with _by_ and the bot username before
normalize_pack_name) and advance to the first-item state. -/
def create_receive_name (pending : Option CreateMeta) (text : String)
    (bot_username : String) : CmdResult :=
  match pending with
  | none => { pending := none, state := .conv_end, replies := [] }
  | some meta =>
    let name := py_strip text
    if meta.is_paid then
      if ¬(PAID_PACK_NAME_MIN_LEN ≤ name.length ∧ name.length ≤ PAID_PACK_NAME_MAX_LEN) then
        { pending := some meta, state := .wait_name,
          replies := ["Name length invalid for paid pack; please resend."] }
      else
        let meta2 := { meta with title := some name, slug := some (normalize_pack_name name) }
        { pending := some meta2,
          state := .wait_first_item,
          replies := ["Now send a single emoji or sticker as the first item."] }
    else
      if ¬(FREE_PACK_NAME_MIN_LEN ≤ name.length ∧ name.length ≤ FREE_PACK_NAME_MAX_LEN) then
        { pending := some meta, state := .wait_name,
          replies := ["Name length invalid for free pack; please resend."] }
      else
        let slug2 := normalize_pack_name (name ++ "_by_" ++ bot_username)
        let meta2 := { meta with title := some name, slug := some slug2 }
        { pending := some meta2,
          state := .wait_first_item,
          replies := ["Now send a single emoji or sticker as the first item."] }

/-- Remote and local fallibility oracle for create_receive_first_item. -/
structure RemoteEnv where
  create_ok : Bool
  insert_pack_ok : Bool
  insert_item_ok : Bool
deriving DecidableEq

inductive Outcome where
  | ended
  | wait_first_item
  | threw
deriving DecidableEq

structure FirstItemResult where
  ledger : Ledger
  pending : Option CreateMeta
  replies : List String
  logs : List String
  outcome : Outcome
deriving DecidableEq

/-- Link format of src/main.py line 434. -/
def pack_link (ptype slug : String) : String :=
  "https://t.me/" ++ (if ptype = "emoji" then "addemoji" else "addstickers") ++ "/" ++ slug

/-- src/main.py create_receive_first_item lines 421-453, the part after item
validation: remote create_pack (try/except: on failure reply and END without
popping pending), then insert_pack OUTSIDE any try (a failure there escapes
the handler), then the success reply, then insert_pack_item inside
try/except-pass (a failure there is silently swallowed), then pop pending. -/
def create_commit_first_item (led : Ledger) (uid : Nat) (meta : CreateMeta)
    (env : RemoteEnv) (file_id : String) : FirstItemResult :=
  match meta.slug, meta.title with
  | some slug, some title =>
    if ¬env.create_ok then
      { ledger := led, pending := some meta,
        replies := ["Failed to create pack: RemoteError"],
        logs := ["create_pack failed"], outcome := .ended }
    else if ¬env.insert_pack_ok then
      { ledger := led, pending := some meta, replies := [], logs := [], outcome := .threw }
    else
      let link := pack_link meta.ptype slug
      let ins := insert_pack led ⟨uid, slug, title, meta.ptype, meta.is_paid, link⟩
      let led2 := if env.insert_item_ok then
          insert_pack_item ins.1 ins.2 file_id none meta.ptype
        else ins.1
      { ledger := led2, pending := none,
        replies := ["Pack created! " ++ link], logs := [], outcome := .ended }
  | _, _ =>
    { ledger := led, pending := some meta, replies := [], logs := [], outcome := .threw }

/-- src/main.py create_receive_first_item (lines 390-453): kind validation of
the incoming item (mismatch re-enters the same state), then the commit path. -/
def create_receive_first_item (led : Ledger) (uid : Nat)
    (pending : Option CreateMeta) (msg : MsgContent) (env : RemoteEnv) : FirstItemResult :=
  match pending with
  | none => { ledger := led, pending := none, replies := [], logs := [], outcome := .ended }
  | some meta =>
    match msg with
    | .sticker fid custom _ =>
      if meta.ptype = "emoji" ∧ custom = false then
        { ledger := led, pending := some meta,
          replies := ["Please send a custom emoji (not a sticker) for an emoji pack."],
          logs := [], outcome := .wait_first_item }
      else if meta.ptype = "sticker" ∧ custom = true then
        { ledger := led, pending := some meta,
          replies := ["Please send a sticker (not a custom emoji) for a sticker pack."],
          logs := [], outcome := .wait_first_item }
      else
        create_commit_first_item led uid meta env fid
    | .text _ =>
      if meta.ptype = "emoji" then
        create_commit_first_item led uid meta env "GENERATED"
      else
        { ledger := led, pending := some meta,
          replies := ["Please send a single emoji or sticker."],
          logs := [], outcome := .wait_first_item }
    | .photo fid =>
      if meta.ptype = "sticker" then
        create_commit_first_item led uid meta env fid
      else
        { ledger := led, pending := some meta,
          replies := ["Please send a single emoji or sticker."],
          logs := [], outcome := .wait_first_item }

/-! ## Appending to an existing pack (src/main.py addto_callback, lines 635-691)

The embedding tracks the item-row count of the selected pack.  The oracle
records whether the pack lookup succeeded, whether a supported item could be
rebuilt from the stashed message, and whether the remote append and the
ledger insert succeeded.
-/

/-- Item cap chosen in src/main.py addto_callback line 650:
PAID_MAX_ITEMS if pack.is_paid_pack else (FREE_MAX_EMOJIS for emoji,
FREE_MAX_STICKERS otherwise). -/
def pack_item_limit (ptype : String) (is_paid_pack : Bool) : Nat :=
  if is_paid_pack then PAID_MAX_ITEMS
  else if ptype = "emoji" then FREE_MAX_EMOJIS else FREE_MAX_STICKERS

structure AddtoEnv where
  pack_found : Bool
  item_ok : Bool
  remote_ok : Bool
  insert_ok : Bool
deriving DecidableEq

/-- src/main.py addto_callback, effect on the pack's pack_items count:
reject when the pack is missing; reject when current >= limit (check-then-act
guard before the remote call, no insert); reject unsupported items; otherwise
the ledger row is inserted only when both the remote append and the insert
inside the same try block succeed. -/
def addto_callback (ptype : String) (is_paid_pack : Bool) (current : Nat)
    (env : AddtoEnv) : Nat :=
  if env.pack_found = false then current
  else if pack_item_limit ptype is_paid_pack ≤ current then current
  else if env.item_ok = false then current
  else if env.remote_ok = true ∧ env.insert_ok = true then current + 1
  else current

/-- Repeated appends to a single pack. -/
def addto_fold (ptype : String) (is_paid_pack : Bool) (n : Nat)
    (envs : List AddtoEnv) : Nat :=
  envs.foldl (fun m e => addto_callback ptype is_paid_pack m e) n

/-! ## Item-removal confirmation (src/main.py rem_confirm, lines 763-777)

The confirm button token is produced by rem_receive_item (line 757) and
delete_receive_item (line 813) as remconf|pack_id|file_id.  rem_confirm
splits on the bar, treats data-indexing errors and int() errors as uncaught
Python exceptions, and only inside the try block calls the remote removal
followed by the ledger deletion.
-/

def splitOnBarAux : List Char → List Char → List (List Char)
  | acc, [] => [acc.reverse]
  | acc, c :: cs =>
    if c.toNat = 124 then acc.reverse :: splitOnBarAux [] cs
    else splitOnBarAux (c :: acc) cs

/-- Python str.split("|"). -/
def splitOnBar (s : String) : List String :=
  (splitOnBarAux [] s.data).map String.mk

/-- Python int() on the decimal strings this code path feeds it. -/
def py_int (s : String) : Option Nat :=
  if s.data ≠ [] ∧ ∀ c ∈ s.data, 48 ≤ c.toNat ∧ c.toNat ≤ 57 then
    some (s.data.foldl (fun n c => n * 10 + (c.toNat - 48)) 0)
  else none

inductive RemOutcome where
  | replied
  | threw
deriving DecidableEq

structure RemConfirmResult where
  ledger : Ledger
  replies : List String
  outcome : RemOutcome
deriving DecidableEq

/-- Token produced for the Confirm button: f-string remconf|pack_id|file_id
(pack_id_repr is the decimal rendering of the pack id). -/
def rem_confirm_button_data (pack_id_repr file_id : String) : String :=
  "remconf|" ++ pack_id_repr ++ "|" ++ file_id

/-- src/main.py rem_confirm (lines 763-777): split the callback data on the
bar; data[1] == "cancel" cancels; otherwise the tuple assignment reads
data[0]..data[3] (IndexError escapes when fewer than four fields) and
int(data[2]) (ValueError escapes on a non-decimal field); then, inside try,
the remote removal runs first and the ledger deletion runs after it, so a
remote failure skips the deletion and is reported. -/
def rem_confirm (led : Ledger) (data : String) (remote_ok : Bool) : RemConfirmResult :=
  let parts := splitOnBar data
  match parts.get? 1 with
  | none => { ledger := led, replies := [], outcome := .threw }
  | some p1 =>
    if p1 = "cancel" then
      { ledger := led, replies := ["Canceled."], outcome := .replied }
    else
      match parts.get? 2, parts.get? 3 with
      | some p2, some p3 =>
        match py_int p2 with
        | none => { ledger := led, replies := [], outcome := .threw }
        | some pack_id =>
          if remote_ok then
            { ledger := remove_pack_item_if_exists led pack_id p3,
              replies := ["Removed."], outcome := .replied }
          else
            { ledger := led, replies := ["Failed: RemoteError"], outcome := .replied }
      | _, _ => { ledger := led, replies := [], outcome := .threw }

/-! ## Adaptive-create commit (src/main.py acr_bg_choice, lines 542-591)

The world tracks the user's adaptive_pack_name column and the remote
adaptive packs this flow has created, as slug-and-item-count pairs.
-/

structure AcrWorld where
  adaptive_pack_name : Option String
  remote_packs : List (String × Nat)
deriving DecidableEq

/-- src/main.py acr_bg_choice terminal commit (lines 567-591): when the
user row has no adaptive_pack_name, create the remote pack and record its
slug via set_user_field; when it is set, append to the existing pack.  A
remote failure leaves everything unchanged (the handler replies and ends).
mode_valid is false when the accumulated state had no usable input mode. -/
def acr_bg_choice_commit (uid_repr : String) (bot_username : String)
    (w : AcrWorld) (mode_valid create_ok append_ok : Bool) : AcrWorld :=
  if mode_valid = false then w
  else
    match w.adaptive_pack_name with
    | none =>
      let slug := normalize_pack_name ("adaptive_" ++ uid_repr ++ "_by_" ++ bot_username)
      if create_ok then
        { adaptive_pack_name := some slug, remote_packs := w.remote_packs ++ [(slug, 1)] }
      else w
    | some slug =>
      if append_ok then
        { w with remote_packs :=
            w.remote_packs.map (fun p => if p.1 = slug then (p.1, p.2 + 1) else p) }
      else w

/-- Repeated completions of the adaptive-create flow for one user. -/
def acr_fold (uid_repr bot_username : String) (w : AcrWorld)
    (os : List (Bool × Bool × Bool)) : AcrWorld :=
  os.foldl (fun w o => acr_bg_choice_commit uid_repr bot_username w o.1 o.2.1 o.2.2) w

/-! ## Flow-state registry and cancellation (src/main.py lines 275-279, 1023-1029)

One user's entries in the five module-level pending dicts.  The FlowOp
constructors are exactly the write sites of those dicts in src/main.py;
no handler ever writes pending_duplicate.
-/

inductive DelState where
  | dtype (t : String)
  | dpack (pack_id : Nat)
deriving DecidableEq

structure AcrState where
  mode : Option String := none
  font_idx : Option Nat := none
  bg : Option String := none
deriving DecidableEq

structure Flows where
  pending_create : Option CreateMeta
  pending_remove : Option Nat
  pending_delete : Option DelState
  pending_acr : Option AcrState
  pending_duplicate : Option Unit
deriving DecidableEq

def initFlows : Flows :=
  { pending_create := none, pending_remove := none, pending_delete := none,
    pending_acr := none, pending_duplicate := none }

/-- src/main.py cancel_all (lines 1023-1029): pop the user's entries from
pending_create, pending_remove, pending_delete and pending_acr
(pending_duplicate is not popped). -/
def cancel_all (f : Flows) : Flows :=
  { f with
    pending_create := none
    pending_remove := none
    pending_delete := none
    pending_acr := none }

/-- Write sites of the pending dicts in src/main.py, for a single user:
create_cmd line 350, create_receive_name lines 384-385,
create_receive_first_item line 452, rem_pack_pick line 732, delete_cmd
line 795, del_pack_pick line 823, acr line 484, acr_receive and
acr_font_choice mutations, acr_bg_choice line 590, cancel_all. -/
inductive FlowOp where
  | create_cmd_start (m : CreateMeta)
  | create_name_update (m : CreateMeta)
  | create_commit
  | rem_pick (pack_id : Nat)
  | delete_start (t : String)
  | delete_pick (pack_id : Nat)
  | acr_start
  | acr_update (st : AcrState)
  | acr_commit
  | cancel
deriving DecidableEq

def applyFlowOp (f : Flows) : FlowOp → Flows
  | .create_cmd_start m => { f with pending_create := some m }
  | .create_name_update m => { f with pending_create := some m }
  | .create_commit => { f with pending_create := none }
  | .rem_pick pid => { f with pending_remove := some pid }
  | .delete_start t => { f with pending_delete := some (.dtype t) }
  | .delete_pick pid => { f with pending_delete := some (.dpack pid) }
  | .acr_start => { f with pending_acr := some {} }
  | .acr_update st => { f with pending_acr := some st }
  | .acr_commit => { f with pending_acr := none }
  | .cancel => cancel_all f

def applyFlowOps (f : Flows) (ops : List FlowOp) : Flows :=
  ops.foldl applyFlowOp f

/-! ## Pack duplication (src/sticker.py duplicate_pack, lines 57-91)

The remote calls of the duplication loop are recorded as an event trace:
create_set is the create_new_sticker_set call seeded with the first item,
append is one add_sticker_to_set call, yield is the asyncio.sleep(0) after
every append whose index is divisible by ten.
-/

inductive DupEvent (α : Type) where
  | create_set (x : α)
  | append (x : α)
  | yield
deriving DecidableEq

/-- The for-loop of duplicate_pack (lines 86-89): for idx in
range(1, len(input_stickers)): append input_stickers[idx]; if
idx % 10 == 0: await asyncio.sleep(0).  A failing append raises, ending
the loop with the earlier appends kept.  Returns the trace and whether
the loop ran to completion. -/
def dup_append_loop {α : Type} (ok : Nat → Bool) : List α → Nat → List (DupEvent α) × Bool
  | [], _ => ([], true)
  | x :: rest, idx =>
    if ok idx then
      let tail := dup_append_loop ok rest (idx + 1)
      ((DupEvent.append x :: (if idx % 10 = 0 then [DupEvent.yield] else [])) ++ tail.1, tail.2)
    else ([], false)

/-- src/sticker.py duplicate_pack: raise on an empty source (none), create
the new set with the first item (a remote create failure raises: none),
then run the append loop over the remaining items in order. -/
def duplicate_pack {α : Type} (items : List α) (create_ok : Bool) (ok : Nat → Bool) :
    Option (List (DupEvent α) × Bool) :=
  match items with
  | [] => none
  | first :: rest =>
    if create_ok then
      let t := dup_append_loop ok rest 1
      some (DupEvent.create_set first :: t.1, t.2)
    else none

/-- Items committed to the new remote pack by a trace. -/
def committed {α : Type} (evs : List (DupEvent α)) : List α :=
  evs.filterMap (fun e => match e with
    | .create_set x => some x
    | .append x => some x
    | .yield => none)

/-- Number of append events in a trace. -/
def countAppends {α : Type} (evs : List (DupEvent α)) : Nat :=
  (evs.filter (fun e => match e with | .append _ => true | _ => false)).length

/-- The failure-free shape of the append loop: items appended one at a time
in order, with a yield immediately after every append whose index is
divisible by ten. -/
def withYields {α : Type} : List α → Nat → List (DupEvent α)
  | [], _ => []
  | x :: rest, idx =>
    (DupEvent.append x :: (if idx % 10 = 0 then [DupEvent.yield] else [])) ++ withYields rest (idx + 1)

/-! ## Claim C1: append quota ceiling -/

theorem addto_callback_le (ptype : String) (b : Bool) (n : Nat) (e : AddtoEnv)
    (h : n ≤ pack_item_limit ptype b) :
    addto_callback ptype b n e ≤ pack_item_limit ptype b := by
  unfold addto_callback
  split_ifs <;> omega

theorem addto_fold_le (ptype : String) (b : Bool) :
    ∀ (envs : List AddtoEnv) (n : Nat), n ≤ pack_item_limit ptype b →
      addto_fold ptype b n envs ≤ pack_item_limit ptype b := by
  intro envs
  induction envs with
  | nil => intro n h; exact h
  | cons e rest ih =>
    intro n h
    exact ih (addto_callback ptype b n e) (addto_callback_le ptype b n e h)

theorem addto_callback_at_cap (ptype : String) (b : Bool) (n : Nat) (e : AddtoEnv)
    (h : pack_item_limit ptype b ≤ n) : addto_callback ptype b n e = n := by
  unfold addto_callback
  split_ifs <;> omega

/-- C1: for every sequence of append attempts on a single collection, the
ledger item-row count never exceeds the item cap for the collection's
(tier, kind) pair — PAID_MAX_ITEMS for a paid pack, FREE_MAX_EMOJIS for a
free emoji pack, FREE_MAX_STICKERS for a free sticker pack — and the
check-then-act guard before the remote append leaves the count unchanged
(no inserted row) whenever the current count is at or above the cap. -/
theorem C1_append_quota_ceiling (ptype : String) (is_paid_pack : Bool) (n0 : Nat)
    (h0 : n0 ≤ pack_item_limit ptype is_paid_pack) (envs : List AddtoEnv) :
    addto_fold ptype is_paid_pack n0 envs ≤ pack_item_limit ptype is_paid_pack
    ∧ (∀ (n : Nat) (e : AddtoEnv), pack_item_limit ptype is_paid_pack ≤ n →
        addto_callback ptype is_paid_pack n e = n)
    ∧ pack_item_limit ptype true = PAID_MAX_ITEMS
    ∧ pack_item_limit "emoji" false = FREE_MAX_EMOJIS
    ∧ pack_item_limit "sticker" false = FREE_MAX_STICKERS := by
  refine ⟨addto_fold_le ptype is_paid_pack envs n0 h0,
    fun n e h => addto_callback_at_cap ptype is_paid_pack n e h, rfl, rfl, by decide⟩

theorem C1_append_quota_ceiling_witness :
    (0 : Nat) ≤ pack_item_limit "emoji" false
    ∧ addto_fold "emoji" false 0 [⟨true, true, true, true⟩] ≤ pack_item_limit "emoji" false
    ∧ addto_callback "emoji" false (pack_item_limit "emoji" false) ⟨true, true, true, true⟩
        = pack_item_limit "emoji" false :=
  ⟨by decide,
   (C1_append_quota_ceiling "emoji" false 0 (by decide) [⟨true, true, true, true⟩]).1,
   (C1_append_quota_ceiling "emoji" false 0 (by decide) [⟨true, true, true, true⟩]).2.1
     (pack_item_limit "emoji" false) ⟨true, true, true, true⟩ (Nat.le_refl _)⟩

/-! ## Claim C2: remote create failure leaves the ledger untouched -/

theorem create_commit_ledger_of_create_fail (led : Ledger) (uid : Nat)
    (m : CreateMeta) (env : RemoteEnv) (fid : String) (hfail : env.create_ok = false) :
    (create_commit_first_item led uid m env fid).ledger = led := by
  unfold create_commit_first_item
  cases hs : m.slug with
  | none => rfl
  | some sl =>
    cases ht : m.title with
    | none => rfl
    | some ti => simp [hfail]

/-- C2: in the Create-Collection flow, a remote create failure inserts no
Collection row and no Item row (the ledger is unchanged for every message),
the failure is reported and the conversation ends, and a retried /create
command installs a fresh pending entry regardless of any residue. -/
theorem C2_create_remote_failure (led : Ledger) (uid : Nat) (meta : CreateMeta)
    (env : RemoteEnv) (hfail : env.create_ok = false) :
    (∀ (pending : Option CreateMeta) (msg : MsgContent),
      (create_receive_first_item led uid pending msg env).ledger = led)
    ∧ (∀ (sl ti fid : String), meta.slug = some sl → meta.title = some ti →
        create_commit_first_item led uid meta env fid =
          { ledger := led, pending := some meta,
            replies := ["Failed to create pack: RemoteError"],
            logs := ["create_pack failed"], outcome := .ended })
    ∧ (∀ (paid : Bool) (t : String) (pending : Option CreateMeta),
        (py_lower t = "emoji" ∨ py_lower t = "sticker") →
        (paid = false → count_user_packs_of_type led uid (py_lower t) = 0) →
        (create_cmd led uid paid [t] pending).pending
          = some { ptype := py_lower t, is_paid := paid }) := by
  refine ⟨?_, ?_, ?_⟩
  · intro pending msg
    cases pending with
    | none => rfl
    | some m =>
      cases msg with
      | sticker fid custom em =>
        simp only [create_receive_first_item]
        split
        · rfl
        · split
          · rfl
          · exact create_commit_ledger_of_create_fail led uid m env fid hfail
      | text t =>
        simp only [create_receive_first_item]
        split
        · exact create_commit_ledger_of_create_fail led uid m env "GENERATED" hfail
        · rfl
      | photo fid =>
        simp only [create_receive_first_item]
        split
        · exact create_commit_ledger_of_create_fail led uid m env fid hfail
        · rfl
  · intro sl ti fid hs ht
    unfold create_commit_first_item
    rw [hs, ht]
    simp [hfail]
  · intro paid t pending harg hquota
    have h1 : ¬(py_lower t ≠ "emoji" ∧ py_lower t ≠ "sticker") := by
      rcases harg with h | h <;> simp [h]
    have h2 : ¬(¬paid = true ∧ 0 < count_user_packs_of_type led uid (py_lower t)) := by
      cases paid
      · simp [hquota rfl]
      · simp
    simp only [create_cmd]
    rw [if_neg h1, if_neg h2]

theorem C2_create_remote_failure_witness :
    ((create_receive_first_item ⟨[], [], 1⟩ 7
        (some ⟨"emoji", false, some "T", some "slugx"⟩) (.text "hi") ⟨false, true, true⟩).ledger
      = ⟨[], [], 1⟩)
    ∧ create_commit_first_item ⟨[], [], 1⟩ 7 ⟨"emoji", false, some "T", some "slugx"⟩
        ⟨false, true, true⟩ "GENERATED"
      = { ledger := ⟨[], [], 1⟩, pending := some ⟨"emoji", false, some "T", some "slugx"⟩,
          replies := ["Failed to create pack: RemoteError"],
          logs := ["create_pack failed"], outcome := .ended }
    ∧ (create_cmd ⟨[], [], 1⟩ 7 false ["emoji"] (some ⟨"emoji", false, some "T", some "slugx"⟩)).pending
      = some { ptype := py_lower "emoji", is_paid := false } :=
  ⟨(C2_create_remote_failure ⟨[], [], 1⟩ 7 ⟨"emoji", false, some "T", some "slugx"⟩
      ⟨false, true, true⟩ rfl).1 (some ⟨"emoji", false, some "T", some "slugx"⟩) (.text "hi"),
   (C2_create_remote_failure ⟨[], [], 1⟩ 7 ⟨"emoji", false, some "T", some "slugx"⟩
      ⟨false, true, true⟩ rfl).2.1 "slugx" "T" "GENERATED" rfl rfl,
   (C2_create_remote_failure ⟨[], [], 1⟩ 7 ⟨"emoji", false, some "T", some "slugx"⟩
      ⟨false, true, true⟩ rfl).2.2 false "emoji" (some ⟨"emoji", false, some "T", some "slugx"⟩)
      (Or.inl (by decide)) (fun h => by decide)⟩

/-! ## Claim C3: the removal-confirmation handler -/

/-- C3 evidence: on the exact callback token its own producers build
(remconf with three bar-separated fields, src/main.py lines 757 and 813),
rem_confirm raises an IndexError at the tuple assignment before attempting
either the remote removal or the ledger deletion, for both remote oracle
values; the ledger row survives untouched. -/
theorem C3_rem_confirm_raises :
    rem_confirm ⟨[], [⟨1, "abc", none, "emoji"⟩], 2⟩ (rem_confirm_button_data "1" "abc") true
      = ⟨⟨[], [⟨1, "abc", none, "emoji"⟩], 2⟩, [], .threw⟩
    ∧ rem_confirm ⟨[], [⟨1, "abc", none, "emoji"⟩], 2⟩ (rem_confirm_button_data "1" "abc") false
      = ⟨⟨[], [⟨1, "abc", none, "emoji"⟩], 2⟩, [], .threw⟩ := by
  constructor <;> rfl

/-! ## Claim C4: ledger-write failure after remote success -/

/-- C4 counterexample: with the remote create succeeding and the
Collection-row insert failing, the exception escapes the handler (it is not
swallowed) and the user receives no reply at all, in particular no success
confirmation — contradicting the claim that every post-remote-success ledger
insert failure is logged, swallowed, and followed by the success message. -/
theorem C4_insert_pack_failure_counterexample :
    (create_receive_first_item ⟨[], [], 1⟩ 7
        (some ⟨"emoji", false, some "T", some "slugx"⟩) (.text "hi") ⟨true, false, true⟩).outcome
      = Outcome.threw
    ∧ (create_receive_first_item ⟨[], [], 1⟩ 7
        (some ⟨"emoji", false, some "T", some "slugx"⟩) (.text "hi") ⟨true, false, true⟩).replies
      = [] := by
  constructor <;> rfl

/-- C4 amended: after a successful remote create, a failure of the first
Item-row insert is swallowed silently (no log line) and the user still gets
the success confirmation, with the Collection row inserted and no Item row;
but a failure of the Collection-row insert itself propagates out of the
handler uncaught, with no ledger write and no reply. -/
theorem C4_ledger_write_failure_policy (led : Ledger) (uid : Nat) (meta : CreateMeta)
    (fid sl ti : String) (hs : meta.slug = some sl) (ht : meta.title = some ti) :
    (create_commit_first_item led uid meta ⟨true, true, false⟩ fid =
      { ledger := (insert_pack led ⟨uid, sl, ti, meta.ptype, meta.is_paid, pack_link meta.ptype sl⟩).1,
        pending := none, replies := ["Pack created! " ++ pack_link meta.ptype sl],
        logs := [], outcome := .ended })
    ∧ (create_commit_first_item led uid meta ⟨true, true, false⟩ fid).ledger.items = led.items
    ∧ (create_commit_first_item led uid meta ⟨true, false, true⟩ fid =
      { ledger := led, pending := some meta, replies := [], logs := [], outcome := .threw }) := by
  refine ⟨?_, ?_, ?_⟩
  · unfold create_commit_first_item
    rw [hs, ht]
    simp
  · unfold create_commit_first_item
    rw [hs, ht]
    simp [insert_pack]
  · unfold create_commit_first_item
    rw [hs, ht]
    simp

theorem C4_ledger_write_failure_policy_witness :
    (create_commit_first_item ⟨[], [], 1⟩ 7 ⟨"emoji", false, some "T", some "slugx"⟩
        ⟨true, true, false⟩ "f1" =
      { ledger := (insert_pack ⟨[], [], 1⟩ ⟨7, "slugx", "T", "emoji", false, pack_link "emoji" "slugx"⟩).1,
        pending := none, replies := ["Pack created! " ++ pack_link "emoji" "slugx"],
        logs := [], outcome := .ended })
    ∧ (create_commit_first_item ⟨[], [], 1⟩ 7 ⟨"emoji", false, some "T", some "slugx"⟩
        ⟨true, true, false⟩ "f1").ledger.items = ([] : List LedgerItem)
    ∧ (create_commit_first_item ⟨[], [], 1⟩ 7 ⟨"emoji", false, some "T", some "slugx"⟩
        ⟨true, false, true⟩ "f1" =
      { ledger := ⟨[], [], 1⟩, pending := some ⟨"emoji", false, some "T", some "slugx"⟩,
        replies := [], logs := [], outcome := .threw }) :=
  C4_ledger_write_failure_policy ⟨[], [], 1⟩ 7 ⟨"emoji", false, some "T", some "slugx"⟩
    "f1" "slugx" "T" rfl rfl

/-! ## Claim C5: cancellation clears the flow state -/

theorem flows_dup_none (ops : List FlowOp) :
    ∀ f : Flows, f.pending_duplicate = none →
      (applyFlowOps f ops).pending_duplicate = none := by
  induction ops with
  | nil => intro f h; exact h
  | cons op rest ih =>
    intro f h
    have hstep : (applyFlowOp f op).pending_duplicate = none := by
      cases op <;> simp [applyFlowOp, cancel_all, h]
    exact ih _ hstep

/-- C5: an explicit cancel clears the flow state of every flow kind for the
user regardless of each flow's current state: in any reachable registry
state (any sequence of handler writes starting from the empty registry) a
trailing cancel event restores the empty registry, and cancel_all itself
unconditionally empties the create, remove, delete and adaptive-create
entries while leaving pending_duplicate (which no handler ever populates)
as it was. -/
theorem C5_cancel_clears_all_flows (ops : List FlowOp) :
    applyFlowOps initFlows (ops ++ [FlowOp.cancel]) = initFlows
    ∧ (∀ f : Flows, (cancel_all f).pending_create = none
        ∧ (cancel_all f).pending_remove = none
        ∧ (cancel_all f).pending_delete = none
        ∧ (cancel_all f).pending_acr = none
        ∧ (cancel_all f).pending_duplicate = f.pending_duplicate) := by
  constructor
  · have hdup : (applyFlowOps initFlows ops).pending_duplicate = none :=
      flows_dup_none ops initFlows rfl
    show List.foldl applyFlowOp initFlows (ops ++ [FlowOp.cancel]) = initFlows
    rw [List.foldl_append]
    show applyFlowOp (applyFlowOps initFlows ops) FlowOp.cancel = initFlows
    revert hdup
    generalize applyFlowOps initFlows ops = s
    obtain ⟨a, b, c, d, e⟩ := s
    intro hdup
    simp only [applyFlowOp, cancel_all] at *
    rw [hdup]
    rfl
  · intro f
    obtain ⟨a, b, c, d, e⟩ := f
    exact ⟨rfl, rfl, rfl, rfl, rfl⟩

/-! ## Claim C6: at most one adaptive collection per user -/

theorem acr_commit_len_inv (u bu : String) (w : AcrWorld) (mv c a : Bool)
    (h : w.remote_packs.length = if w.adaptive_pack_name.isSome then 1 else 0) :
    (acr_bg_choice_commit u bu w mv c a).remote_packs.length =
      if (acr_bg_choice_commit u bu w mv c a).adaptive_pack_name.isSome then 1 else 0 := by
  cases mv with
  | false => simpa [acr_bg_choice_commit] using h
  | true =>
    cases hw : w.adaptive_pack_name with
    | none =>
      rw [hw] at h
      cases c with
      | false =>
        simp only [acr_bg_choice_commit, hw]
        simpa [hw] using h
      | true =>
        simp only [acr_bg_choice_commit, hw]
        simp at h
        simp [h]
    | some s =>
      rw [hw] at h
      cases a with
      | false =>
        simp only [acr_bg_choice_commit, hw]
        simpa [hw] using h
      | true =>
        simp only [acr_bg_choice_commit, hw]
        simpa [hw] using h

theorem acr_fold_inv (u bu : String) (os : List (Bool × Bool × Bool)) :
    ∀ w : AcrWorld, w.remote_packs.length = (if w.adaptive_pack_name.isSome then 1 else 0) →
      (acr_fold u bu w os).remote_packs.length =
        if (acr_fold u bu w os).adaptive_pack_name.isSome then 1 else 0 := by
  induction os with
  | nil => intro w h; exact h
  | cons o rest ih =>
    intro w h
    exact ih _ (acr_commit_len_inv u bu w o.1 o.2.1 o.2.2 h)

/-- C6: across any sequence of adaptive-create completions starting from a
user with no adaptive pack, at most one adaptive collection ever exists;
completing with the adaptive-collection field already set keeps the slug and
creates no new collection (it appends to the existing one, incrementing its
item count), while completing with the field unset and a successful remote
create records the derived slug and creates the single collection. -/
theorem C6_single_adaptive_collection (uid_repr bot_username : String)
    (os : List (Bool × Bool × Bool)) :
    (acr_fold uid_repr bot_username ⟨none, []⟩ os).remote_packs.length ≤ 1
    ∧ (∀ (w : AcrWorld) (slug : String) (mv c a : Bool), w.adaptive_pack_name = some slug →
        (acr_bg_choice_commit uid_repr bot_username w mv c a).adaptive_pack_name = some slug
        ∧ (acr_bg_choice_commit uid_repr bot_username w mv c a).remote_packs.length
            = w.remote_packs.length)
    ∧ (∀ w : AcrWorld, w.adaptive_pack_name = none →
        acr_bg_choice_commit uid_repr bot_username w true true true =
          { adaptive_pack_name :=
              some (normalize_pack_name ("adaptive_" ++ uid_repr ++ "_by_" ++ bot_username)),
            remote_packs := w.remote_packs
              ++ [(normalize_pack_name ("adaptive_" ++ uid_repr ++ "_by_" ++ bot_username), 1)] })
    ∧ (∀ (slug : String) (n : Nat),
        acr_bg_choice_commit uid_repr bot_username ⟨some slug, [(slug, n)]⟩ true true true
          = ⟨some slug, [(slug, n + 1)]⟩) := by
  refine ⟨?_, ?_, ?_, ?_⟩
  · have h := acr_fold_inv uid_repr bot_username os ⟨none, []⟩ rfl
    rw [h]
    split <;> omega
  · intro w slug mv c a hw
    cases mv with
    | false => simp [acr_bg_choice_commit, hw]
    | true =>
      cases a with
      | false => simp [acr_bg_choice_commit, hw]
      | true => simp [acr_bg_choice_commit, hw]
  · intro w hw
    simp [acr_bg_choice_commit, hw]
  · intro slug n
    simp [acr_bg_choice_commit]

theorem C6_single_adaptive_collection_witness :
    (acr_fold "7" "XBot" ⟨none, []⟩ [(true, true, true), (true, true, true)]).remote_packs.length ≤ 1
    ∧ ((acr_bg_choice_commit "7" "XBot" ⟨some "s", [("s", 3)]⟩ true true true).adaptive_pack_name
        = some "s"
      ∧ (acr_bg_choice_commit "7" "XBot" ⟨some "s", [("s", 3)]⟩ true true true).remote_packs.length
        = ([("s", 3)] : List (String × Nat)).length)
    ∧ acr_bg_choice_commit "7" "XBot" ⟨some "s", [("s", 3)]⟩ true true true = ⟨some "s", [("s", 4)]⟩ :=
  ⟨(C6_single_adaptive_collection "7" "XBot" [(true, true, true), (true, true, true)]).1,
   (C6_single_adaptive_collection "7" "XBot" []).2.1 ⟨some "s", [("s", 3)]⟩ "s" true true true rfl,
   (C6_single_adaptive_collection "7" "XBot" []).2.2.2 "s" 3⟩

/-! ## Claim C7: the duplication loop -/

theorem dup_append_loop_nil {α : Type} (ok : Nat → Bool) (idx : Nat) :
    dup_append_loop (α := α) ok [] idx = ([], true) := rfl

theorem dup_append_loop_cons {α : Type} (ok : Nat → Bool) (x : α) (rest : List α) (idx : Nat) :
    dup_append_loop ok (x :: rest) idx =
      if ok idx then
        ((DupEvent.append x :: (if idx % 10 = 0 then [DupEvent.yield] else []))
            ++ (dup_append_loop ok rest (idx + 1)).1,
          (dup_append_loop ok rest (idx + 1)).2)
      else ([], false) := rfl

theorem withYields_nil {α : Type} (idx : Nat) : withYields ([] : List α) idx = [] := rfl

theorem withYields_cons {α : Type} (x : α) (rest : List α) (idx : Nat) :
    withYields (x :: rest) idx =
      (DupEvent.append x :: (if idx % 10 = 0 then [DupEvent.yield] else []))
        ++ withYields rest (idx + 1) := rfl

theorem duplicate_pack_nil {α : Type} (create_ok : Bool) (ok : Nat → Bool) :
    duplicate_pack ([] : List α) create_ok ok = none := rfl

theorem duplicate_pack_cons {α : Type} (first : α) (rest : List α)
    (create_ok : Bool) (ok : Nat → Bool) :
    duplicate_pack (first :: rest) create_ok ok =
      if create_ok then
        some (DupEvent.create_set first :: (dup_append_loop ok rest 1).1,
          (dup_append_loop ok rest 1).2)
      else none := rfl

theorem dup_loop_all_ok {α : Type} (ok : Nat → Bool) :
    ∀ (rest : List α) (idx : Nat),
      (∀ i, idx ≤ i → i < idx + rest.length → ok i = true) →
      dup_append_loop ok rest idx = (withYields rest idx, true) := by
  intro rest
  induction rest with
  | nil => intro idx h; rfl
  | cons x r ih =>
    intro idx h
    have hx : ok idx = true :=
      h idx (Nat.le_refl idx) (by simp only [List.length_cons]; omega)
    have tail := ih (idx + 1)
      (fun i h1 h2 => h i (by omega) (by simp only [List.length_cons]; omega))
    rw [dup_append_loop_cons, if_pos hx, tail, withYields_cons]

theorem dup_loop_fail {α : Type} (ok : Nat → Bool) :
    ∀ (rest : List α) (k idx : Nat),
      (∀ i, idx ≤ i → i < idx + k → ok i = true) →
      ok (idx + k) = false → k < rest.length →
      dup_append_loop ok rest idx = (withYields (rest.take k) idx, false) := by
  intro rest
  induction rest with
  | nil =>
    intro k idx h hf hk
    simp at hk
  | cons x r ih =>
    intro k idx h hf hk
    cases k with
    | zero =>
      have hx : ok idx = false := by simpa using hf
      rw [dup_append_loop_cons, if_neg (by simp [hx])]
      rfl
    | succ k2 =>
      have hx : ok idx = true := h idx (Nat.le_refl idx) (by omega)
      have tail := ih k2 (idx + 1)
        (fun i h1 h2 => h i (by omega) (by omega))
        (by have he : idx + 1 + k2 = idx + (k2 + 1) := by omega
            rw [he]; exact hf)
        (by simp only [List.length_cons] at hk; omega)
      rw [dup_append_loop_cons, if_pos hx, tail, List.take_succ_cons, withYields_cons]

theorem committed_cons_create {α : Type} (x : α) (evs : List (DupEvent α)) :
    committed (DupEvent.create_set x :: evs) = x :: committed evs := rfl

theorem committed_withYields {α : Type} :
    ∀ (l : List α) (idx : Nat), committed (withYields l idx) = l := by
  intro l
  induction l with
  | nil => intro idx; rfl
  | cons x r ih =>
    intro idx
    rw [withYields_cons]
    by_cases h : idx % 10 = 0
    · rw [if_pos h]
      show committed (DupEvent.append x :: DupEvent.yield :: withYields r (idx + 1)) = x :: r
      show x :: committed (DupEvent.yield :: withYields r (idx + 1)) = x :: r
      show x :: committed (withYields r (idx + 1)) = x :: r
      rw [ih (idx + 1)]
    · rw [if_neg h]
      show committed (DupEvent.append x :: withYields r (idx + 1)) = x :: r
      show x :: committed (withYields r (idx + 1)) = x :: r
      rw [ih (idx + 1)]

/-- Items carried by the append events only. -/
def appendItems {α : Type} (evs : List (DupEvent α)) : List α :=
  evs.filterMap (fun e => match e with | .append x => some x | _ => none)

theorem appendItems_withYields {α : Type} :
    ∀ (l : List α) (idx : Nat), appendItems (withYields l idx) = l := by
  intro l
  induction l with
  | nil => intro idx; rfl
  | cons x r ih =>
    intro idx
    rw [withYields_cons]
    by_cases h : idx % 10 = 0
    · rw [if_pos h]
      show x :: appendItems (DupEvent.yield :: withYields r (idx + 1)) = x :: r
      show x :: appendItems (withYields r (idx + 1)) = x :: r
      rw [ih (idx + 1)]
    · rw [if_neg h]
      show x :: appendItems (withYields r (idx + 1)) = x :: r
      rw [ih (idx + 1)]

theorem countAppends_nil {α : Type} : countAppends ([] : List (DupEvent α)) = 0 := rfl

theorem countAppends_cons_append {α : Type} (x : α) (l : List (DupEvent α)) :
    countAppends (DupEvent.append x :: l) = countAppends l + 1 := by
  simp [countAppends, List.filter]

theorem countAppends_cons_yield {α : Type} (l : List (DupEvent α)) :
    countAppends (DupEvent.yield :: l) = countAppends l := by
  simp [countAppends, List.filter]

theorem withYields_head_ne_yield {α : Type} (l : List α) (idx : Nat) :
    (withYields l idx).head? ≠ some DupEvent.yield := by
  cases l with
  | nil => simp [withYields_nil]
  | cons x r =>
    rw [withYields_cons]
    simp

theorem withYields_yield_iff {α : Type} :
    ∀ (l : List α) (idx : Nat) (pre : List (DupEvent α)) (x : α) (post : List (DupEvent α)),
      withYields l idx = pre ++ DupEvent.append x :: post →
      (post.head? = some DupEvent.yield ↔ (idx + countAppends pre) % 10 = 0) := by
  intro l
  induction l with
  | nil =>
    intro idx pre x post heq
    rw [withYields_nil] at heq
    exact absurd heq.symm (by simp)
  | cons x0 r ih =>
    intro idx pre x post heq
    rw [withYields_cons] at heq
    by_cases hidx : idx % 10 = 0
    · rw [if_pos hidx] at heq
      rw [List.cons_append, List.cons_append, List.nil_append] at heq
      cases pre with
      | nil =>
        rw [List.nil_append] at heq
        injection heq with h1 h2
        rw [← h2]
        simp [countAppends_nil, hidx]
      | cons e pre2 =>
        rw [List.cons_append] at heq
        injection heq with h1 h2
        subst h1
        cases pre2 with
        | nil =>
          rw [List.nil_append] at h2
          injection h2 with h3 h4
          cases h3
        | cons e2 pre3 =>
          rw [List.cons_append] at h2
          injection h2 with h3 h4
          subst h3
          have := ih (idx + 1) pre3 x post h4
          rw [this, countAppends_cons_append, countAppends_cons_yield]
          constructor <;> (intro hm; omega)
    · rw [if_neg hidx] at heq
      rw [List.cons_append, List.nil_append] at heq
      cases pre with
      | nil =>
        rw [List.nil_append] at heq
        injection heq with h1 h2
        rw [← h2]
        constructor
        · intro hy
          exact absurd hy (withYields_head_ne_yield r (idx + 1))
        · intro hm
          rw [countAppends_nil, Nat.add_zero] at hm
          exact absurd hm hidx
      | cons e pre2 =>
        rw [List.cons_append] at heq
        injection heq with h1 h2
        subst h1
        have := ih (idx + 1) pre2 x post h2
        rw [this, countAppends_cons_append]
        constructor <;> (intro hm; omega)

/-- C7: duplicate-request settlement seeds the new collection with the
source's first item, then appends the remaining items one at a time in the
original order, yielding control immediately after an append exactly when
that append's index is divisible by ten; a remote append failure at the
k-plus-first append stops the loop with exactly the first k-plus-one items
committed and not rolled back; an empty source or a failed remote create
commits nothing. -/
theorem C7_duplicate_loop {α : Type} (first : α) (rest : List α)
    (ok : Nat → Bool) (create_ok : Bool) :
    ((∀ i, 1 ≤ i → i < 1 + rest.length → ok i = true) →
      duplicate_pack (first :: rest) true ok
          = some (DupEvent.create_set first :: withYields rest 1, true)
        ∧ committed (DupEvent.create_set first :: withYields rest 1) = first :: rest)
    ∧ (∀ k, (∀ i, 1 ≤ i → i < 1 + k → ok i = true) → ok (1 + k) = false → k < rest.length →
        duplicate_pack (first :: rest) true ok
            = some (DupEvent.create_set first :: withYields (rest.take k) 1, false)
          ∧ committed (DupEvent.create_set first :: withYields (rest.take k) 1)
              = (first :: rest).take (k + 1))
    ∧ (∀ (pre post : List (DupEvent α)) (x : α),
        withYields rest 1 = pre ++ DupEvent.append x :: post →
        (post.head? = some DupEvent.yield ↔ (1 + countAppends pre) % 10 = 0))
    ∧ appendItems (withYields rest 1) = rest
    ∧ duplicate_pack ([] : List α) create_ok ok = none
    ∧ duplicate_pack (first :: rest) false ok = none := by
  refine ⟨?_, ?_, ?_, appendItems_withYields rest 1, rfl, ?_⟩
  · intro h
    constructor
    · rw [duplicate_pack_cons, if_pos rfl, dup_loop_all_ok ok rest 1 h]
    · rw [committed_cons_create, committed_withYields]
  · intro k h hf hk
    constructor
    · rw [duplicate_pack_cons, if_pos rfl, dup_loop_fail ok rest k 1 h hf hk]
    · rw [committed_cons_create, committed_withYields, List.take_succ_cons]
  · intro pre post x heq
    exact withYields_yield_iff rest 1 pre x post heq
  · rw [duplicate_pack_cons, if_neg (by simp)]

theorem C7_duplicate_loop_witness :
    (duplicate_pack (100 :: List.range 22) true (fun _ => true)
        = some (DupEvent.create_set 100 :: withYields (List.range 22) 1, true))
    ∧ (duplicate_pack (100 :: List.range 22) true (fun i => decide (i ≠ 14))
        = some (DupEvent.create_set 100 :: withYields ((List.range 22).take 13) 1, false))
    ∧ committed (DupEvent.create_set 100 :: withYields ((List.range 22).take 13) 1)
        = (100 :: List.range 22).take 14 :=
  ⟨((C7_duplicate_loop 100 (List.range 22) (fun _ => true) true).1
      (fun i h1 h2 => rfl)).1,
   ((C7_duplicate_loop 100 (List.range 22) (fun i => decide (i ≠ 14)) true).2.1 13
      (by intro i h1 h2; simp only [decide_eq_true_eq]; omega)
      (by decide) (by decide)).1,
   ((C7_duplicate_loop 100 (List.range 22) (fun i => decide (i ≠ 14)) true).2.1 13
      (by intro i h1 h2; simp only [decide_eq_true_eq]; omega)
      (by decide) (by decide)).2⟩

/-! ## Claim C8: free-tier name length gate -/

/-- C8: in the name step of the Create-Collection flow, a free-tier name
whose stripped length is below the 4-character free minimum or above the
free maximum is rejected with a re-prompt and the flow stays in the
awaiting-name state with the pending entry unchanged, while a name within
the free range advances the flow to the awaiting-first-item state. -/
theorem C8_free_name_length_gate (meta : CreateMeta) (text bu : String)
    (hfree : meta.is_paid = false) :
    ((py_strip text).length < FREE_PACK_NAME_MIN_LEN ∨
        FREE_PACK_NAME_MAX_LEN < (py_strip text).length →
      create_receive_name (some meta) text bu =
        { pending := some meta, state := .wait_name,
          replies := ["Name length invalid for free pack; please resend."] })
    ∧ (FREE_PACK_NAME_MIN_LEN ≤ (py_strip text).length ∧
        (py_strip text).length ≤ FREE_PACK_NAME_MAX_LEN →
      (create_receive_name (some meta) text bu).state = ConvState.wait_first_item) := by
  constructor
  · intro hlen
    have hcond : ¬(FREE_PACK_NAME_MIN_LEN ≤ (py_strip text).length ∧
        (py_strip text).length ≤ FREE_PACK_NAME_MAX_LEN) := by
      unfold FREE_PACK_NAME_MIN_LEN FREE_PACK_NAME_MAX_LEN at *
      omega
    simp only [create_receive_name, hfree]
    rw [if_neg (by simp), if_pos hcond]
  · intro hlen
    simp only [create_receive_name, hfree]
    rw [if_neg (by simp), if_neg (not_not_intro hlen)]

theorem C8_free_name_length_gate_witness :
    (create_receive_name (some ⟨"emoji", false, none, none⟩) "AB" "XBot" =
      { pending := some ⟨"emoji", false, none, none⟩, state := .wait_name,
        replies := ["Name length invalid for free pack; please resend."] })
    ∧ (create_receive_name (some ⟨"emoji", false, none, none⟩) "ABCD" "XBot").state
        = ConvState.wait_first_item :=
  ⟨(C8_free_name_length_gate ⟨"emoji", false, none, none⟩ "AB" "XBot" rfl).1
     (Or.inl (by decide)),
   (C8_free_name_length_gate ⟨"emoji", false, none, none⟩ "ABCD" "XBot" rfl).2
     (by decide)⟩

/-! ## Claim C9: slug derivation (paid verbatim, free suffixed) -/

/-- C9: the remote slug derived in the name step is the sanitized name used
verbatim for a paid-tier user, while for a free-tier user the chosen name is
suffixed with _by_ and the bot username before sanitization; consequently a
free slug carries the lowercased bot-identity suffix whenever the name
contains an alphanumeric character and the bot username is a nonempty
alphanumeric string. -/
theorem C9_slug_derivation (meta : CreateMeta) (text bu : String) :
    (meta.is_paid = true →
      PAID_PACK_NAME_MIN_LEN ≤ (py_strip text).length →
      (py_strip text).length ≤ PAID_PACK_NAME_MAX_LEN →
      ∃ m, (create_receive_name (some meta) text bu).pending = some m
        ∧ m.slug = some (normalize_pack_name (py_strip text)))
    ∧ (meta.is_paid = false →
      FREE_PACK_NAME_MIN_LEN ≤ (py_strip text).length →
      (py_strip text).length ≤ FREE_PACK_NAME_MAX_LEN →
      ∃ m, (create_receive_name (some meta) text bu).pending = some m
        ∧ m.slug = some (normalize_pack_name (py_strip text ++ "_by_" ++ bu)))
    ∧ (∀ name u : String, (∃ d ∈ name.data, isAlnumChar d = true) → u.data ≠ [] →
        (∀ c ∈ u.data, isAlnumChar c = true) →
        ('_' :: 'b' :: 'y' :: '_' :: u.data.map asciiLower)
          <:+ (normalize_pack_name (name ++ "_by_" ++ u)).data) := by
  refine ⟨?_, ?_, fun name u h1 h2 h3 => normalize_free_slug_suffix name u h1 h2 h3⟩
  · intro hpaid h1 h2
    simp only [create_receive_name, hpaid]
    rw [if_pos trivial, if_neg (not_not_intro ⟨h1, h2⟩)]
    exact ⟨_, rfl, rfl⟩
  · intro hfree h1 h2
    simp only [create_receive_name, hfree]
    rw [if_neg (by simp), if_neg (not_not_intro ⟨h1, h2⟩)]
    exact ⟨_, rfl, rfl⟩

theorem C9_slug_derivation_witness :
    (∃ m, (create_receive_name (some ⟨"emoji", true, none, none⟩) "My Pack" "XBot").pending
        = some m ∧ m.slug = some (normalize_pack_name (py_strip "My Pack")))
    ∧ (∃ m, (create_receive_name (some ⟨"emoji", false, none, none⟩) "Cats" "XBot").pending
        = some m ∧ m.slug = some (normalize_pack_name (py_strip "Cats" ++ "_by_" ++ "XBot")))
    ∧ ('_' :: 'b' :: 'y' :: '_' :: "XBot".data.map asciiLower)
        <:+ (normalize_pack_name ("Cats" ++ "_by_" ++ "XBot")).data :=
  ⟨(C9_slug_derivation ⟨"emoji", true, none, none⟩ "My Pack" "XBot").1 rfl (by decide) (by decide),
   (C9_slug_derivation ⟨"emoji", false, none, none⟩ "Cats" "XBot").2.1 rfl (by decide) (by decide),
   (C9_slug_derivation ⟨"emoji", false, none, none⟩ "Cats" "XBot").2.2 "Cats" "XBot"
     ⟨'C', by decide, by decide⟩ (by decide) (by decide)⟩

/-! ## Claim C10: normalize_pack_name is idempotent with a clean output -/

/-- C10: normalize_pack_name is idempotent, its output contains only
lowercase ASCII letters, digits and underscores, and the output has neither
a leading nor a trailing underscore. -/
theorem C10_normalize_idempotent_charset (s : String) :
    normalize_pack_name (normalize_pack_name s) = normalize_pack_name s
    ∧ (∀ c ∈ (normalize_pack_name s).data, isLowerSlugChar c = true)
    ∧ (∀ c, (normalize_pack_name s).data.head? = some c → isUnd c = false)
    ∧ (∀ c, (normalize_pack_name s).data.getLast? = some c → isUnd c = false) :=
  ⟨normalize_pack_name_idem s,
   fun _ hc => isLowerSlugChar_of_mem_normalize hc,
   fun _ hc => normalize_head_not_und hc,
   fun _ hc => normalize_getLast_not_und hc⟩

theorem C10_normalize_idempotent_charset_witness :
    normalize_pack_name (normalize_pack_name "A b!C_") = normalize_pack_name "A b!C_"
    ∧ isLowerSlugChar 'a' = true
    ∧ isUnd 'a' = false :=
  ⟨(C10_normalize_idempotent_charset "A b!C_").1,
   (C10_normalize_idempotent_charset "A b!C_").2.1 'a' (by decide),
   (C10_normalize_idempotent_charset "A b!C_").2.2.1 'a' (by decide)⟩
